import Mathlib

/-!
Verification of the router + CMS-cache core of "the-pipeline".

The definitions below are a shallow embedding of the JavaScript sources:
  - `js/router.js`    (class `PipelineRouter`): route table, `parseRoute`,
    `handleRoute` dispatch decision, `goToPage`, `handleFilterChange`;
  - `js/api.js`       (class `AppwriteAPIService`): TTL cache, `getOpportunities`,
    `createOpportunity`, `clearCache`, `clearCacheByCollection`, `search`,
    `getFeaturedContent`, `getDashboardStats`, mock fallback data;
  - the Sanity variant (class `SanityAPIService`): `fetchWithCache`,
    `getFallbackData`, `search`.

JavaScript string builtins (`split`, `trim`, `startsWith`, `includes`,
`slice`) are modelled by executable character-list functions so that every
definition evaluates inside the kernel.  Remote calls are passed in as
explicit `Except`-valued oracles; wall-clock time is an explicit `Nat`
millisecond parameter; the module-level `Map` cache is explicit state
threaded through each operation.  Every list-shaped operation additionally
reports whether a remote call was attempted (the `Bool` component), which
the source performs by `await this.databases...` / `fetch(url)`.
-/

namespace ThePipeline

/-- Model of JavaScript `String.prototype.split` with a one-character
separator: accumulator-based scan over the character list.
`"".split(sep)` gives `[""]`, like in JS. -/
def splitCharsAux (sep : Char) : List Char → List Char → List String
  | [], acc => [String.mk acc.reverse]
  | c :: cs, acc =>
    if c = sep then String.mk acc.reverse :: splitCharsAux sep cs []
    else splitCharsAux sep cs (c :: acc)

/-- JavaScript `s.split(sep)` for a single-character separator. -/
def jsSplit (sep : Char) (s : String) : List String :=
  splitCharsAux sep s.data []

/-- JavaScript `s.trim()`: strip leading and trailing whitespace. -/
def jsTrim (s : String) : String :=
  String.mk (((s.data.dropWhile Char.isWhitespace).reverse.dropWhile
    Char.isWhitespace).reverse)

/-- JavaScript `s.startsWith(p)`. -/
def jsStartsWith (s p : String) : Bool :=
  List.isPrefixOf p.data s.data

/-- JavaScript `s.substring(n)` / `s.slice(n)` (code points; the sources
only ever drop ASCII). -/
def jsDrop (n : Nat) (s : String) : String :=
  String.mk (s.data.drop n)

/-- JavaScript `s.substring(0, n)`. -/
def jsTake (n : Nat) (s : String) : String :=
  String.mk (s.data.take n)

/-- JavaScript `s.slice(0, -1)`: drop the last character. -/
def jsDropRight1 (s : String) : String :=
  String.mk s.data.dropLast

/-- Does the string contain the given character? -/
def jsContainsChar (s : String) (c : Char) : Bool :=
  s.data.contains c

/-- JavaScript `Array.prototype.join` / template concatenation helper. -/
def jsJoin (sep : String) : List String → String
  | [] => ""
  | [x] => x
  | x :: xs => x ++ sep ++ jsJoin sep xs

/-- Character-list infix test (needle, haystack), used to model
JavaScript `haystack.includes(needle)`. -/
def jsIncludesChars (needle : List Char) : List Char → Bool
  | [] => needle.isEmpty
  | c :: rest => needle.isPrefixOf (c :: rest) || jsIncludesChars needle rest

/-- JavaScript `hay.includes(sub)`: substring containment. -/
def jsIncludes (hay sub : String) : Bool :=
  jsIncludesChars sub.data hay.data

/-- Assignment `obj[k] = v` on a JavaScript object / `Map.prototype.set`:
overwrite in place if the key exists (keeping its position, as JS objects
and Maps keep first-insertion order), otherwise append. -/
def assocSet {β : Type} : List (String × β) → String → β → List (String × β)
  | [], k, v => [(k, v)]
  | (k', v') :: rest, k, v =>
    if k' = k then (k, v) :: rest else (k', v') :: assocSet rest k v

/-- Lookup `obj[k]` / `Map.prototype.get`: first entry with the key. -/
def assocGet {β : Type} : List (String × β) → String → Option β
  | [], _ => none
  | (k', v') :: rest, k => if k' = k then some v' else assocGet rest k

/-- JavaScript `a || b` on possibly-absent strings: the empty string is
falsy, so it falls through to the right operand. -/
def jsOrOpt : Option String → Option String → Option String
  | some s, b => if s = "" then b else some s
  | none, b => b

/-- JavaScript `b || false` on a possibly-absent boolean. -/
def jsOrFalse : Option Bool → Bool
  | some b => b
  | none => false

/-- Is this `Except` an error?  Models a rejected promise. -/
def exceptIsErr {ε α : Type} : Except ε α → Bool
  | Except.error _ => true
  | Except.ok _ => false

/-! ## Route dispatcher (`js/router.js`, class `PipelineRouter`) -/

/-- The route handlers registered in `setupRoutes` (their rendering
bodies are DOM side effects, out of scope; only their identity matters
for the dispatch decision). -/
inductive Handler
  | renderHome
  | renderOpportunities
  | renderOpportunityDetail
  | renderDirectory
  | renderCompanyDetail
  | renderRegulatory
  | renderRegulatoryDetail
  | renderInsights
  | renderInsightDetail
  | renderSearch
deriving DecidableEq

/-- The route table built by `setupRoutes`, in registration order
(`this.routes` is a `Map`, which iterates in insertion order). -/
def defaultRoutes : List (String × Handler) :=
  [("", Handler.renderHome),
   ("home", Handler.renderHome),
   ("opportunities", Handler.renderOpportunities),
   ("opportunities/:id", Handler.renderOpportunityDetail),
   ("directory", Handler.renderDirectory),
   ("directory/:id", Handler.renderCompanyDetail),
   ("regulatory", Handler.renderRegulatory),
   ("regulatory/:id", Handler.renderRegulatoryDetail),
   ("insights", Handler.renderInsights),
   ("insights/:id", Handler.renderInsightDetail),
   ("search", Handler.renderSearch)]

/-- The registered patterns, in registration order. -/
def routePatterns : List String :=
  defaultRoutes.map Prod.fst

/-- The inner loop of `parseRoute`: walk pattern segments and path
segments in lockstep.  A segment starting with `:` binds the rest of its
name to the path segment (`tempParams[paramName] = parts[i]`); a literal
segment must be equal, otherwise the pattern is rejected (`isMatch =
false; break`, discarding the partial bindings). -/
def matchSegs : List String → List String → List (String × String) →
    Option (List (String × String))
  | [], [], acc => some acc
  | pp :: pps, s :: ss, acc =>
    if jsStartsWith pp ":" then matchSegs pps ss (assocSet acc (jsDrop 1 pp) s)
    else if pp = s then matchSegs pps ss acc
    else none
  | _, _, _ => none

/-- The pattern scan of `parseRoute`: try each registered pattern in
order; only patterns with the same number of segments are examined
(`pathParts.length === parts.length`); the first full match wins
(`break`).  If nothing matches, `matchedPath` keeps its initial value
`""` and `params` stays empty. -/
def parseRouteGo (parts : List String) : List String → String × List (String × String)
  | [] => ("", [])
  | p :: rest =>
    let pathParts := jsSplit '/' p
    if pathParts.length = parts.length then
      match matchSegs pathParts parts [] with
      | some prm => (p, prm)
      | none => parseRouteGo parts rest
    else parseRouteGo parts rest

/-- `PipelineRouter.parseRoute`: split the route on `/` and scan the
registered patterns.  Returns the matched pattern (or the `""` sentinel)
and the bound parameters; the raw route is also returned in the source
but carries no extra information. -/
def parseRoute (patterns : List String) (route : String) :
    String × List (String × String) :=
  parseRouteGo (jsSplit '/' route) patterns

/-- Outcome of one `handleRoute` dispatch: either some registered
handler is invoked with the bound parameters, or `render404` runs. -/
inductive DispatchOutcome
  | rendered (h : Handler) (params : List (String × String))
  | notFound
deriving DecidableEq

/-- The dispatch decision of `PipelineRouter.handleRoute`: parse the
current route, then `this.routes.get(path)`; a found handler is invoked
(`rendered`), otherwise `render404` (`notFound`).  The surrounding
try/catch guards exceptions thrown by the handler bodies, which are not
modelled here. -/
def handleRoute (routes : List (String × Handler)) (route : String) :
    DispatchOutcome :=
  match assocGet routes (parseRoute (routes.map Prod.fst) route).1 with
  | some h => DispatchOutcome.rendered h (parseRoute (routes.map Prod.fst) route).2
  | none => DispatchOutcome.notFound

/-- Parse a query string the way `new URLSearchParams(qs)` does for the
plain `k=v&k2=v2` inputs the router produces (percent-decoding is the
identity on them). -/
def urlParamsParse (qs : String) : List (String × String) :=
  if qs = "" then []
  else (jsSplit '&' qs).map fun kv =>
    match jsSplit '=' kv with
    | [] => ("", "")
    | [k] => (k, "")
    | k :: v :: _ => (k, v)

/-- `URLSearchParams.prototype.toString` for the same plain inputs. -/
def urlParamsToString (ps : List (String × String)) : String :=
  jsJoin "&" (ps.map fun q => q.1 ++ "=" ++ q.2)

/-- `PipelineRouter.goToPage`: split the current route on `?`, keep the
path, set `page` in the (possibly empty) query parameters, and rebuild
`path?query`. -/
def goToPage (currentRoute : String) (page : Nat) : String :=
  let pieces := jsSplit '?' currentRoute
  let path := pieces.headD ""
  let queryString := (pieces.drop 1).headD ""
  let urlParams := assocSet (urlParamsParse queryString) "page" (toString page)
  path ++ "?" ++ urlParamsToString urlParams

/-- The new route built by `PipelineRouter.handleFilterChange`: the base
path of the current route, plus `?key=value` when the filter value is
truthy (`encodeURIComponent` is the identity on the plain values used). -/
def handleFilterChangeRoute (currentRoute filterKey filterValue : String) :
    String :=
  let basePath := (jsSplit '?' currentRoute).headD ""
  if filterValue = "" then basePath
  else basePath ++ "?" ++ filterKey ++ "=" ++ filterValue

/-! ## Spec-side route matcher

The specification describes `resolve` as: linearly scan registered
patterns for the first one whose segment count matches and whose literal
segments match positionally; parameter segments (leading `:`) bind
unconditionally by name.  The following two definitions follow those
words; the refinement theorem for C2 relates them to `parseRoute` as
translated from the source. -/

/-- Spec wording: the pattern matches the path when the segment counts
are equal and every literal segment equals the path segment at its
position (parameter segments match anything). -/
def specMatches (pattern : String) (parts : List String) : Bool :=
  let pp := jsSplit '/' pattern
  (pp.length == parts.length) &&
    (pp.zip parts).all fun q => jsStartsWith q.1 ":" || q.1 == q.2

/-- Spec wording: bind each parameter segment (name after the leading
`:`) to the path segment at its position. -/
def specBind (pattern : String) (parts : List String) : List (String × String) :=
  ((jsSplit '/' pattern).zip parts).foldl
    (fun a q => if jsStartsWith q.1 ":" then assocSet a (jsDrop 1 q.1) q.2 else a) []

/-! ## CMS client with TTL cache (`js/api.js`, class `AppwriteAPIService`) -/

/-- `this.cacheTimeout = 5 * 60 * 1000` (milliseconds). -/
def cacheTimeout : Nat := 5 * 60 * 1000

/-- One cache entry: `{ data, timestamp: Date.now() }`. -/
structure CacheEntry (α : Type) where
  data : α
  timestamp : Nat
deriving DecidableEq

/-- `this.cache`: a `Map` from string keys to entries, in insertion
order. -/
abbrev Cache (α : Type) := List (String × CacheEntry α)

/-- `AppwriteAPIService.isValidCache`: truthy entry and
`Date.now() - cacheEntry.timestamp < this.cacheTimeout`.  (Time is
monotone, so `Nat` subtraction agrees with the JS number subtraction:
both sides classify a timestamp in the future as fresh, since the
difference is below the positive timeout.) -/
def isValidCache {α : Type} (now : Nat) : Option (CacheEntry α) → Bool
  | none => false
  | some e => decide (now - e.timestamp < cacheTimeout)

/-- `AppwriteAPIService.setCache`. -/
def setCache {α : Type} (cache : Cache α) (key : String) (d : α) (now : Nat) :
    Cache α :=
  assocSet cache key ⟨d, now⟩

/-- `AppwriteAPIService.clearCache`: `this.cache.clear()`. -/
def clearCache {α : Type} (_ : Cache α) : Cache α := []

/-- `AppwriteAPIService.clearCacheByCollection`: delete every entry
whose key contains the collection name as a substring
(`key.includes(collection)`). -/
def clearCacheByCollection {α : Type} (collection : String) (cache : Cache α) :
    Cache α :=
  cache.filter fun kv => !(jsIncludes kv.1 collection)

/-- JavaScript truthiness of a possibly-absent string (the empty string
is falsy). -/
def jsTruthyStr : Option String → Bool
  | some s => !(s = "")
  | none => false

/-- The filter object accepted by `getOpportunities`: absent fields are
`undefined` in JS and are skipped by `JSON.stringify`; `limit` defaults
to 20 and `offset` to 0 at destructuring time. -/
structure Filters where
  type : Option String
  sector : Option String
  limit : Option Nat
  offset : Option Nat
deriving DecidableEq

/-- The empty filter object `{}`. -/
def emptyFilters : Filters := ⟨none, none, none, none⟩

/-- `JSON.stringify(filters)`: present fields in declaration order,
absent (`undefined`) fields skipped. -/
def stringifyFilters (f : Filters) : String :=
  "\x7b" ++ jsJoin ","
    ((match f.type with
      | some t => ["\"type\":\"" ++ t ++ "\""]
      | none => []) ++
     (match f.sector with
      | some s => ["\"sector\":\"" ++ s ++ "\""]
      | none => []) ++
     (match f.limit with
      | some n => ["\"limit\":" ++ toString n]
      | none => []) ++
     (match f.offset with
      | some n => ["\"offset\":" ++ toString n]
      | none => [])) ++ "\x7d"

/-- `AppwriteAPIService.getCacheKey`:
`collection + "_" + JSON.stringify(query)`. -/
def getCacheKey (collection : String) (f : Filters) : String :=
  collection ++ "_" ++ stringifyFilters f

/-- The `Appwrite.Query` constructors used by the service. -/
inductive AppwriteQuery
  | orderDesc (field : String)
  | orderAsc (field : String)
  | limit (n : Nat)
  | offset (n : Nat)
  | equal (field value : String)
  | search (field value : String)
deriving DecidableEq

/-- Nested `company` record carried by the opportunity mock data. -/
structure CompanyRef where
  companyName : String
  sector : String
deriving DecidableEq

/-- An opportunity document (`$id` is written `id`, `$createdAt` is
written `createdAt`). -/
structure OppDoc where
  id : String
  title : String
  description : String
  opportunityType : String
  closingDate : String
  location : String
  company : Option CompanyRef
  createdAt : String
deriving DecidableEq

/-- `AppwriteAPIService.getMockOpportunities`. -/
def getMockOpportunities : List OppDoc :=
  [⟨"mock-opp-1",
    "Senior Reservoir Engineer - Lagos",
    "Lead reservoir modeling and simulation projects for offshore oil fields. Minimum 8 years experience required.",
    "Job",
    "2024-09-15",
    "Lagos, Nigeria",
    some ⟨"Shell Nigeria", "Upstream"⟩,
    "2024-08-22T10:00:00.000Z"⟩,
   ⟨"mock-opp-2",
    "Equipment Supply Contract - $50M",
    "Supply and maintenance of drilling equipment for deep water operations.",
    "Tender",
    "2024-09-30",
    "Port Harcourt, Nigeria",
    some ⟨"TotalEnergies", "Upstream"⟩,
    "2024-08-21T10:00:00.000Z"⟩]

/-- The query list built by `getOpportunities`: sort newest first, then
`limit`/`offset`; a truthy `type` filter appends a server-side equality
filter (the destructured `sector` is never used by this method in the
source). -/
def opportunityQueries (f : Filters) : List AppwriteQuery :=
  let queries := [AppwriteQuery.orderDesc "$createdAt",
    AppwriteQuery.limit (f.limit.getD 20),
    AppwriteQuery.offset (f.offset.getD 0)]
  if jsTruthyStr f.type then
    queries ++ [AppwriteQuery.equal "opportunityType" (f.type.getD "")]
  else queries

/-- The try/catch body of `getOpportunities` once the cache has been
missed: on success store the documents under the cache key and return
them; on failure return the mock records.  The third component records
that a remote call was attempted. -/
def fetchOpportunities
    (remote : List AppwriteQuery → Except String (List OppDoc))
    (f : Filters) (now : Nat) (cacheKey : String)
    (cache : Cache (List OppDoc)) :
    List OppDoc × Cache (List OppDoc) × Bool :=
  match remote (opportunityQueries f) with
  | Except.ok docs => (docs, setCache cache cacheKey docs now, true)
  | Except.error _ => (getMockOpportunities, cache, true)

/-- `AppwriteAPIService.getOpportunities`: build the cache key, serve a
fresh entry without touching the remote store, otherwise fetch (with
mock fallback on failure). -/
def getOpportunities
    (remote : List AppwriteQuery → Except String (List OppDoc))
    (f : Filters) (now : Nat) (cache : Cache (List OppDoc)) :
    List OppDoc × Cache (List OppDoc) × Bool :=
  match assocGet cache (getCacheKey "opportunities" f) with
  | some e =>
    if isValidCache now (some e) then (e.data, cache, false)
    else fetchOpportunities remote f now (getCacheKey "opportunities" f) cache
  | none => fetchOpportunities remote f now (getCacheKey "opportunities" f) cache

/-- The data object handed to `createOpportunity` (fields other than the
defaulted `featured` flag are opaque to the method and represented by
`title`). -/
structure CreateData where
  title : String
  featured : Option Bool
deriving DecidableEq

/-- The document written by `createOpportunity`:
`ID.unique()` result, the spread payload, the stamped
`publishedAt: new Date().toISOString()`, and
`featured: data.featured || false`. -/
structure CreateRequest where
  docId : String
  title : String
  publishedAt : String
  featured : Bool
deriving DecidableEq

/-- The document payload built inside `createOpportunity`. -/
def buildCreateRequest (genId nowIso : String) (data : CreateData) :
    CreateRequest :=
  ⟨genId, data.title, nowIso, jsOrFalse data.featured⟩

/-- `AppwriteAPIService.createOpportunity`: write the document; on
success clear the collection cache and return the created record; on
failure rethrow (`throw error`).  The remote store returns the created
document. -/
def createOpportunity
    (remote : CreateRequest → Except String CreateRequest)
    (genId nowIso : String) (data : CreateData)
    (cache : Cache (List OppDoc)) :
    Except String (CreateRequest × Cache (List OppDoc)) :=
  match remote (buildCreateRequest genId nowIso data) with
  | Except.ok opportunity =>
    Except.ok (opportunity, clearCacheByCollection "opportunities" cache)
  | Except.error e => Except.error e

/-- `Object.keys(this.collections)` in declaration order. -/
def collectionKeys : List String :=
  ["opportunities", "companies", "regulatory", "articles"]

/-- A document as consumed by `search` (optional fields feed the
`subtitle` coalescing chain). -/
structure SearchDoc where
  id : String
  title : String
  companyName : Option String
  source : Option String
  author : Option String
  description : Option String
deriving DecidableEq

/-- One tagged search hit: the document, `_type` (the collection key
with its trailing "s" sliced off), and the coalesced subtitle. -/
structure TaggedResult where
  doc : SearchDoc
  typeTag : String
  subtitle : Option String
deriving DecidableEq

/-- The per-hit tagging in `search`:
`_type: collectionKey.slice(0, -1)` and
`subtitle: doc.companyName || doc.source || doc.author ||
doc.description?.substring(0, 100)`. -/
def tagResult (collectionKey : String) (d : SearchDoc) : TaggedResult :=
  ⟨d, jsDropRight1 collectionKey,
    jsOrOpt d.companyName (jsOrOpt d.source (jsOrOpt d.author
      (d.description.map (jsTake 100))))⟩

/-- `AppwriteAPIService.search`: a whitespace-only term short-circuits
to `[]` before any remote call; otherwise each selected collection is
queried (a per-collection failure is logged and skipped) and the merged
hits are cut to `results.slice(0, 10)`.  The second component counts the
remote calls issued. -/
def appwriteSearch
    (remote : String → List AppwriteQuery → Except String (List SearchDoc))
    (searchTerm : String) (types : List String) :
    List TaggedResult × Nat :=
  if jsTrim searchTerm = "" then ([], 0)
  else
    let collectionsToSearch :=
      if types.length > 0 then types.filter (fun t => collectionKeys.contains t)
      else collectionKeys
    let r := collectionsToSearch.foldl (fun acc collectionKey =>
      match remote collectionKey
        [AppwriteQuery.search "title" searchTerm, AppwriteQuery.limit 5] with
      | Except.ok docs => (acc.1 ++ docs.map (tagResult collectionKey), acc.2 + 1)
      | Except.error _ => (acc.1, acc.2 + 1))
      (([] : List TaggedResult), 0)
    (r.1.take 10, r.2)

/-- A company document as shaped by `getMockCompanies`. -/
structure CompanyDoc where
  id : String
  companyName : String
  sector : String
  description : String
  ncdmbNumber : String
  website : String
deriving DecidableEq

/-- `AppwriteAPIService.getMockCompanies`. -/
def getMockCompanies : List CompanyDoc :=
  [⟨"mock-comp-1",
    "Shell Petroleum Development Company",
    "Upstream",
    "Leading international oil and gas company operating in Nigeria since 1936.",
    "NCDMB-001-2024",
    "https://shell.com.ng"⟩,
   ⟨"mock-comp-2",
    "TotalEnergies Nigeria",
    "Upstream",
    "French multinational integrated energy company.",
    "NCDMB-002-2024",
    "https://totalenergies.com.ng"⟩]

/-- A regulatory-update document as shaped by `getMockRegulatory`. -/
structure RegDoc where
  id : String
  title : String
  source : String
  summary : String
  publishedDate : String
deriving DecidableEq

/-- `AppwriteAPIService.getMockRegulatory`. -/
def getMockRegulatory : List RegDoc :=
  [⟨"mock-reg-1",
    "New Environmental Impact Assessment Guidelines",
    "NUPRC",
    "Updated EIA requirements for oil and gas operations.",
    "2024-08-22"⟩]

/-- An article document as shaped by `getMockArticles`. -/
structure ArtDoc where
  id : String
  title : String
  summary : String
  author : String
  publishedDate : String
  tags : List String
deriving DecidableEq

/-- `AppwriteAPIService.getMockArticles`. -/
def getMockArticles : List ArtDoc :=
  [⟨"mock-art-1",
    "Nigeria\x27s Oil Production Reaches New Heights",
    "NNPC reports significant increase in daily production capacity.",
    "Energy Analytics Team",
    "2024-08-22",
    ["Production", "NNPC", "Oil"]⟩]

/-- The fixed-shape summary assembled by `getFeaturedContent`. -/
structure FeaturedContent where
  featuredOpportunities : List OppDoc
  featuredCompanies : List CompanyDoc
  latestUpdates : List RegDoc
  recentArticles : List ArtDoc
deriving DecidableEq

/-- `AppwriteAPIService.getMockFeaturedContent`: the static fallback
summary (`getMockOpportunities().slice(0, 2)` and the other mock
lists). -/
def getMockFeaturedContent : FeaturedContent :=
  ⟨getMockOpportunities.take 2, getMockCompanies, getMockRegulatory,
    getMockArticles⟩

/-- `AppwriteAPIService.getFeaturedContent`: four concurrent
`listDocuments` calls joined with `Promise.all`; each argument is the
outcome of one sub-fetch.  Any rejection rejects the join and the catch
returns the whole mock summary. -/
def getFeaturedContent
    (ro : Except String (List OppDoc))
    (rc : Except String (List CompanyDoc))
    (rr : Except String (List RegDoc))
    (ra : Except String (List ArtDoc)) : FeaturedContent :=
  match ro, rc, rr, ra with
  | Except.ok o, Except.ok c, Except.ok r, Except.ok a => ⟨o, c, r, a⟩
  | _, _, _, _ => getMockFeaturedContent

/-- The fixed-shape stats object assembled by `getDashboardStats`. -/
structure DashboardStats where
  totalOpportunities : Nat
  totalCompanies : Nat
  totalUpdates : Nat
  totalArticles : Nat
deriving DecidableEq

/-- The static fallback stats returned by the catch of
`getDashboardStats`. -/
def mockDashboardStats : DashboardStats := ⟨156, 89, 24, 12⟩

/-- `AppwriteAPIService.getDashboardStats`: four concurrent one-document
list calls; each argument is the `total` carried by one response.  Any
rejection yields the static fallback stats. -/
def getDashboardStats (ro rc rr ra : Except String Nat) : DashboardStats :=
  match ro, rc, rr, ra with
  | Except.ok o, Except.ok c, Except.ok r, Except.ok a => ⟨o, c, r, a⟩
  | _, _, _, _ => mockDashboardStats

/-! ## Sanity CMS client variant (class `SanityAPIService`) -/

/-- A Sanity document: union of the fields appearing in
`getFallbackData` (absent fields are the empty string; the nested
`company` reference of the opportunity mocks is flattened into
`companyName`/`sector`). -/
structure SanityDoc where
  id : String
  title : String
  description : String
  opportunityType : String
  closingDate : String
  companyName : String
  sector : String
  ncdmbNumber : String
  source : String
  summary : String
  publishedDate : String
deriving DecidableEq

/-- `SanityAPIService.getFallbackData`: mock records selected by
substring tests on the GROQ query text. -/
def getFallbackData (query : String) : List SanityDoc :=
  if jsIncludes query "opportunity" then
    [⟨"mock-1",
      "Senior Reservoir Engineer - Lagos",
      "Lead reservoir modeling and simulation projects for offshore oil fields. Minimum 8 years experience required.",
      "Job", "2024-09-15", "Shell Nigeria", "Upstream", "", "", "", ""⟩,
     ⟨"mock-2",
      "Equipment Supply Contract - $50M",
      "Supply and maintenance of drilling equipment for deep water operations.",
      "Tender", "2024-09-30", "TotalEnergies", "Upstream", "", "", "", ""⟩]
  else if jsIncludes query "companyProfile" then
    [⟨"company-1",
      "", "Leading international oil and gas company operating in Nigeria since 1936.",
      "", "", "Shell Petroleum Development Company", "Upstream",
      "NCDMB-001-2024", "", "", ""⟩,
     ⟨"company-2",
      "", "French multinational integrated energy company.",
      "", "", "TotalEnergies Nigeria", "Upstream",
      "NCDMB-002-2024", "", "", ""⟩]
  else if jsIncludes query "regulatoryUpdate" then
    [⟨"reg-1",
      "New Environmental Impact Assessment Guidelines",
      "", "", "", "", "", "",
      "NUPRC", "Updated EIA requirements for oil and gas operations.",
      "2024-08-22"⟩,
     ⟨"reg-2",
      "Local Content Implementation Roadmap",
      "", "", "", "", "", "",
      "NCDMB", "Strategic framework for achieving 70% local content.",
      "2024-08-20"⟩]
  else []

/-- `SanityAPIService.fetchWithCache`: the cache key is
`query + "_" + JSON.stringify(params)` with `params` always the
defaulted `{}` at every call site.  A fresh entry is served without a
remote call; otherwise the remote is queried and, on failure, a cached
entry is returned even if expired, falling back to the static mock data
only when no entry exists. -/
def fetchWithCache
    (remote : String → Except String (List SanityDoc))
    (query : String) (now : Nat) (cache : Cache (List SanityDoc)) :
    List SanityDoc × Cache (List SanityDoc) × Bool :=
  match assocGet cache (query ++ "_" ++ "\x7b\x7d") with
  | some cached =>
    if isValidCache now (some cached) then (cached.data, cache, false)
    else
      match remote query with
      | Except.ok data =>
        (data, setCache cache (query ++ "_" ++ "\x7b\x7d") data now, true)
      | Except.error _ => (cached.data, cache, true)
  | none =>
    match remote query with
    | Except.ok data =>
      (data, setCache cache (query ++ "_" ++ "\x7b\x7d") data now, true)
    | Except.error _ => (getFallbackData query, cache, true)

/-- The GROQ query template built by `SanityAPIService.search`. -/
def sanitySearchQuery (searchTerm : String) (types : List String)
    (limit : Nat) : String :=
  let typeFilters :=
    if types.length > 0 then
      " && _type in [" ++ jsJoin ", " (types.map fun t => "\"" ++ t ++ "\"") ++ "]"
    else ""
  "*[" ++ typeFilters ++ " && (\n            title match \"*" ++ searchTerm ++
    "*\" ||\n            description match \"*" ++ searchTerm ++
    "*\" ||\n            summary match \"*" ++ searchTerm ++
    "*\" ||\n            companyName match \"*" ++ searchTerm ++
    "*\"\n        )] | order(_score desc) [0..." ++ toString limit ++
    "] \x7b\n            _id,\n            _type,\n            title,\n            \"subtitle\": coalesce(summary, description, companyName),\n            \"image\": coalesce(coverImage, logo),\n            \"date\": coalesce(publishedDate, publishedAt, _createdAt)\n        \x7d"

/-- `SanityAPIService.search`: a whitespace-only term short-circuits to
`[]` before the query is even built; otherwise the GROQ query (sliced to
`[0...limit]`, `limit` defaulting to 10) goes through `fetchWithCache`. -/
def sanitySearch
    (remote : String → Except String (List SanityDoc))
    (searchTerm : String) (types : List String) (limit : Nat)
    (now : Nat) (cache : Cache (List SanityDoc)) :
    List SanityDoc × Cache (List SanityDoc) × Bool :=
  if jsTrim searchTerm = "" then ([], cache, false)
  else fetchWithCache remote (sanitySearchQuery searchTerm types limit) now cache

/-! ## Helper lemmas -/

/-- The inner matching loop, characterised: with equal segment counts it
succeeds exactly when every literal segment agrees positionally, and the
bindings are the left fold of the parameter assignments over the zipped
segments. -/
theorem matchSegs_eq (pp : List String) :
    ∀ (ss : List String) (acc : List (String × String)),
      pp.length = ss.length →
      matchSegs pp ss acc =
        (if (pp.zip ss).all (fun q => jsStartsWith q.1 ":" || q.1 == q.2) then
          some ((pp.zip ss).foldl
            (fun a q => if jsStartsWith q.1 ":" then assocSet a (jsDrop 1 q.1) q.2
              else a) acc)
        else none) := by
  induction pp with
  | nil =>
    intro ss acc h
    cases ss with
    | nil => simp [matchSegs]
    | cons s ss => simp at h
  | cons p pps ih =>
    intro ss acc h
    cases ss with
    | nil => simp at h
    | cons s ss =>
      simp only [List.length_cons, Nat.add_right_cancel_iff] at h
      simp only [List.zip_cons_cons, List.all_cons, List.foldl_cons, matchSegs]
      cases hb : jsStartsWith p ":" with
      | true =>
        rw [if_pos rfl, ih ss (assocSet acc (jsDrop 1 p) s) h]
        simp only [Bool.true_or, Bool.true_and, if_true]
      | false =>
        by_cases hps : p = s
        · subst hps
          rw [if_neg (by simp), if_pos rfl, ih ss acc h, Bool.false_or,
            beq_self_eq_true, Bool.true_and]
          simp only [Bool.false_eq_true, if_false]
        · rw [if_neg (by simp), if_neg hps, Bool.false_or]
          have hbe : (p == s) = false := by simpa using hps
          rw [hbe, Bool.false_and, if_neg (by simp)]

/-- `parseRoute`, characterised against the spec-side matcher: the
result is the first registered pattern satisfying `specMatches` (in
registration order) together with its `specBind` bindings, and the
`("", [])` sentinel when no pattern matches. -/
theorem parseRoute_eq_find (patterns : List String) (route : String) :
    parseRoute patterns route =
      (match patterns.find? (fun p => specMatches p (jsSplit '/' route)) with
       | some p => (p, specBind p (jsSplit '/' route))
       | none => ("", [])) := by
  unfold parseRoute
  generalize jsSplit '/' route = parts
  induction patterns with
  | nil => rfl
  | cons p rest ih =>
    simp only [parseRouteGo]
    by_cases hlen : (jsSplit '/' p).length = parts.length
    · rw [if_pos hlen, matchSegs_eq _ _ _ hlen]
      cases hall : ((jsSplit '/' p).zip parts).all
          (fun q => jsStartsWith q.1 ":" || q.1 == q.2) with
      | true =>
        have hm : specMatches p parts = true := by
          simp [specMatches, hlen, hall]
        have hf : List.find? (fun q => specMatches q parts) (p :: rest) = some p :=
          List.find?_cons_of_pos rest hm
        rw [hf, if_pos rfl]
        rfl
      | false =>
        have hm : ¬(specMatches p parts = true) := by
          simp [specMatches, hall]
        have hf : List.find? (fun q => specMatches q parts) (p :: rest) =
            List.find? (fun q => specMatches q parts) rest :=
          List.find?_cons_of_neg rest hm
        rw [hf, if_neg (by simp)]
        exact ih
    · have hm : ¬(specMatches p parts = true) := by
        simp [specMatches, hlen]
      have hf : List.find? (fun q => specMatches q parts) (p :: rest) =
          List.find? (fun q => specMatches q parts) rest :=
        List.find?_cons_of_neg rest hm
      rw [if_neg hlen, hf]
      exact ih

/-- `Map.set` then `Map.get`: the written key reads back the written
value, every other key is untouched. -/
theorem assocGet_assocSet {β : Type} (m : List (String × β)) (k k' : String)
    (v : β) :
    assocGet (assocSet m k v) k' = if k = k' then some v else assocGet m k' := by
  induction m with
  | nil =>
    by_cases hkk : k = k' <;> simp [assocSet, assocGet, hkk]
  | cons kv rest ih =>
    obtain ⟨k2, v2⟩ := kv
    by_cases h2 : k2 = k
    · subst h2
      by_cases hkk : k2 = k' <;> simp [assocSet, assocGet, hkk]
    · by_cases hk2 : k2 = k'
      · subst hk2
        have hne : ¬(k = k2) := fun h => h2 h.symm
        simp [assocSet, assocGet, h2, hne]
      · simp [assocSet, assocGet, h2, hk2, ih]

/-- `Map.get` after a key-predicate filter: kept keys read as before,
dropped keys read as absent. -/
theorem assocGet_filter {β : Type} (f : String → Bool)
    (m : List (String × β)) (k : String) :
    assocGet (m.filter fun kv => f kv.1) k =
      if f k then assocGet m k else none := by
  induction m with
  | nil => cases hf : f k <;> simp [assocGet, hf]
  | cons kv rest ih =>
    obtain ⟨k2, v2⟩ := kv
    by_cases hk2 : k2 = k
    · subst hk2
      cases hf : f k2 <;> simp [List.filter_cons, hf, assocGet, ih]
    · cases hf : f k2 <;> simp [List.filter_cons, hf, assocGet, hk2, ih]

theorem isPrefixOf_append_self (a b : List Char) :
    List.isPrefixOf a (a ++ b) = true := by
  induction a with
  | nil => simp [List.isPrefixOf]
  | cons c cs ih => simp [List.isPrefixOf, ih]

theorem jsIncludesChars_append_self (a b : List Char) :
    jsIncludesChars a (a ++ b) = true := by
  cases h : a ++ b with
  | nil =>
    have ha : a = [] := (List.append_eq_nil.mp h).1
    subst ha
    simp [jsIncludesChars]
  | cons c rest =>
    simp only [jsIncludesChars]
    rw [← h, isPrefixOf_append_self]
    simp

/-- A string is contained in any extension of itself on the right. -/
theorem jsIncludes_append_left (pre post : String) :
    jsIncludes (pre ++ post) pre = true := by
  unfold jsIncludes
  rw [String.data_append]
  exact jsIncludesChars_append_self _ _

/-- A string is contained in any double extension on the right. -/
theorem jsIncludes_append_left2 (a b c : String) :
    jsIncludes (a ++ b ++ c) a = true := by
  unfold jsIncludes
  rw [String.data_append, String.data_append, List.append_assoc]
  exact jsIncludesChars_append_self _ _

/-- Every cache key built by `getCacheKey` contains its collection name
as a substring. -/
theorem jsIncludes_getCacheKey (collection : String) (f : Filters) :
    jsIncludes (getCacheKey collection f) collection = true :=
  jsIncludes_append_left2 collection "_" (stringifyFilters f)

/-- If every segment of a pattern is a literal without a question mark,
and some path segment carries a question mark, the positional
literal-match check fails. -/
theorem all_zip_query_false (pp : List String)
    (hp : (pp.all fun s => (!(jsStartsWith s ":")) && (!(jsContainsChar s '?'))) = true) :
    ∀ (parts : List String), pp.length = parts.length →
      (∃ seg ∈ parts, jsContainsChar seg '?' = true) →
      ((pp.zip parts).all fun q => jsStartsWith q.1 ":" || q.1 == q.2) = false := by
  induction pp with
  | nil =>
    intro parts hlen hq
    cases parts with
    | nil => rcases hq with ⟨seg, hm, _⟩; simp at hm
    | cons s ss => simp at hlen
  | cons p pps ih =>
    intro parts hlen hq
    cases parts with
    | nil => simp at hlen
    | cons s ss =>
      simp only [List.length_cons, Nat.add_right_cancel_iff] at hlen
      simp only [List.all_cons, Bool.and_eq_true] at hp
      obtain ⟨⟨hns, hnc⟩, hpt⟩ := hp
      rw [Bool.not_eq_true'] at hns hnc
      rcases hq with ⟨seg, hmem, hqc⟩
      rcases List.mem_cons.mp hmem with rfl | hmem'
      · have hps : (p == seg) = false := by
          cases hb : p == seg with
          | true =>
            have : p = seg := eq_of_beq hb
            rw [← this] at hqc
            rw [hqc] at hnc
            exact absurd hnc (by simp)
          | false => rfl
        simp [List.zip_cons_cons, List.all_cons, hns, hps]
      · have ht := ih hpt ss hlen ⟨seg, hmem', hqc⟩
        simp [List.zip_cons_cons, List.all_cons, ht]

/-- The matched pattern returned by `parseRoute` is either the `""`
no-match sentinel or one of the scanned patterns. -/
theorem parseRoute_fst_mem (patterns : List String) (route : String) :
    (parseRoute patterns route).1 = "" ∨ (parseRoute patterns route).1 ∈ patterns := by
  rw [parseRoute_eq_find]
  cases hf : patterns.find? (fun p => specMatches p (jsSplit '/' route)) with
  | none => left; rfl
  | some p =>
    right
    simpa using List.mem_of_find?_eq_some hf

/-! ## Claim theorems -/

/-- C1 (code bug): the spec says an unmatched path signals "not found"
and renders the dedicated `render404` view.  In the code, `parseRoute`
reports "no match" through the sentinel path `""`, but `""` is itself a
registered pattern (the home route), so `this.routes.get("")` always
yields the home handler: `handleRoute` never reaches `render404` for any
route, and an unmatched path such as "nonexistent" (matched by no
registered pattern, as the second conjunct checks) renders the home
page. -/
theorem unmatched_route_renders_home_not_404 :
    (∀ route : String, handleRoute defaultRoutes route ≠ DispatchOutcome.notFound)
    ∧ (routePatterns.all fun p =>
        !(specMatches p (jsSplit '/' "nonexistent"))) = true
    ∧ handleRoute defaultRoutes "nonexistent"
        = DispatchOutcome.rendered Handler.renderHome [] := by
  refine ⟨?_, by decide, by decide⟩
  intro route
  have hmem := parseRoute_fst_mem (defaultRoutes.map Prod.fst) route
  have hall : ∀ x ∈ defaultRoutes.map Prod.fst,
      (assocGet defaultRoutes x).isSome = true := by decide
  have hsome : (assocGet defaultRoutes
      (parseRoute (defaultRoutes.map Prod.fst) route).1).isSome = true := by
    rcases hmem with h | h
    · rw [h]; rfl
    · exact hall _ h
  unfold handleRoute
  cases hget : assocGet defaultRoutes
      (parseRoute (defaultRoutes.map Prod.fst) route).1 with
  | none => rw [hget] at hsome; simp at hsome
  | some h => simp

/-- C2 (confirmed): `parseRoute` returns exactly the first registered
pattern (scan order = registration order, via `List.find?`) whose
segment count equals the segment count of the path and whose literal
segments equal the path segments positionally (`specMatches`), binding
each parameter segment by the name after the `:` sentinel (`specBind`);
a pattern with a different segment count never matches, because
`specMatches` requires the counts to be equal (second conjunct), and
when several patterns match, `List.find?` hands back the first
registered one. -/
theorem resolve_first_match_in_registration_order
    (patterns : List String) (route : String) :
    parseRoute patterns route =
      (match patterns.find? (fun p => specMatches p (jsSplit '/' route)) with
       | some p => (p, specBind p (jsSplit '/' route))
       | none => ("", []))
    ∧ (∀ p : String, specMatches p (jsSplit '/' route) = true →
        (jsSplit '/' p).length = (jsSplit '/' route).length) := by
  refine ⟨parseRoute_eq_find patterns route, ?_⟩
  intro p hp
  unfold specMatches at hp
  simp only [Bool.and_eq_true] at hp
  exact eq_of_beq hp.1

/-- C2 witness: the characterisation applied to the registered table at
a concrete detail route, evaluating the first-match scan and the
equal-segment-count requirement of the matcher. -/
theorem resolve_first_match_in_registration_order_witness :
    parseRoute routePatterns "directory/shell"
      = ("directory/:id", [("id", "shell")])
    ∧ (jsSplit '/' "directory/:id").length
        = (jsSplit '/' "directory/shell").length :=
  ⟨by
    rw [(resolve_first_match_in_registration_order routePatterns
      "directory/shell").1]
    decide,
   (resolve_first_match_in_registration_order routePatterns
      "directory/shell").2 "directory/:id" (by decide)⟩

/-- C10 counterexample: the claim says a route carrying a query suffix
never matches the registered pattern for its base path.  The pagination
route produced by `goToPage` from the detail route "opportunities/42"
does match the registered pattern of its base path
("opportunities/:id"), with the query text absorbed into the bound
parameter. -/
theorem query_route_matches_param_pattern :
    goToPage "opportunities/42" 7 = "opportunities/42?page=7"
    ∧ parseRoute routePatterns "opportunities/42"
        = ("opportunities/:id", [("id", "42")])
    ∧ parseRoute routePatterns "opportunities/42?page=7"
        = ("opportunities/:id", [("id", "42?page=7")]) := by
  refine ⟨by decide, by decide, by decide⟩

/-- C10 (corrected): `parseRoute` does not strip the query text - it
stays inside a path segment.  Hence a query-bearing route never matches
any registered pattern made only of literal segments (in particular
"opportunities?page=2", as produced by `goToPage` and
`handleFilterChange` on the list route, matches no registered pattern at
all); but when the pattern position carrying the query is a parameter
segment, the route does match, with the query text bound into the
parameter value. -/
theorem query_text_not_stripped_before_matching (route : String) :
    ((∃ seg ∈ jsSplit '/' route, jsContainsChar seg '?' = true) →
      ∀ p ∈ routePatterns,
        ((jsSplit '/' p).all fun s => !(jsStartsWith s ":")) = true →
        specMatches p (jsSplit '/' route) = false)
    ∧ goToPage "opportunities" 2 = "opportunities?page=2"
    ∧ handleFilterChangeRoute "opportunities" "type" "Job" = "opportunities?type=Job"
    ∧ parseRoute routePatterns "opportunities?page=2" = ("", [])
    ∧ parseRoute routePatterns "opportunities?type=Job" = ("", [])
    ∧ parseRoute routePatterns "opportunities/42?page=2"
        = ("opportunities/:id", [("id", "42?page=2")]) := by
  refine ⟨?_, by decide, by decide, by decide, by decide, by decide⟩
  intro hq p hp hlit
  by_cases hlen : (jsSplit '/' p).length = (jsSplit '/' route).length
  · have hpquery : ((jsSplit '/' p).all fun s =>
        (!(jsStartsWith s ":")) && (!(jsContainsChar s '?'))) = true := by
      fin_cases hp <;> first
        | rfl
        | exact absurd hlit (by decide)
    have hfalse := all_zip_query_false (jsSplit '/' p) hpquery
      (jsSplit '/' route) hlen hq
    unfold specMatches
    simp [hfalse]
  · have hbe : ((jsSplit '/' p).length == (jsSplit '/' route).length) = false := by
      simpa using hlen
    unfold specMatches
    simp [hbe]

/-- C10 witness: the first conjunct of the amended theorem applied at
the concrete pagination route. -/
theorem query_text_not_stripped_before_matching_witness :
    specMatches "opportunities" (jsSplit '/' "opportunities?page=2") = false :=
  (query_text_not_stripped_before_matching "opportunities?page=2").1
    (by decide) "opportunities" (by decide) (by decide)

/-- C3 (confirmed): for any filter object and any starting cache state
in which the key is not fresh, a first `getOpportunities` call whose
remote fetch succeeds stores the page, and a second call with identical
filters within the TTL window of that fetch returns the identical page
from cache: the first call attempts the remote store, the second does
not, and the second leaves the cache unchanged. -/
theorem list_cache_idempotent_single_remote_call
    (remote : List AppwriteQuery → Except String (List OppDoc))
    (f : Filters) (cache : Cache (List OppDoc)) (now1 now2 : Nat)
    (docs : List OppDoc)
    (hremote : remote (opportunityQueries f) = Except.ok docs)
    (hmiss : isValidCache now1
      (assocGet cache (getCacheKey "opportunities" f)) = false)
    (h12 : now1 ≤ now2) (httl : now2 - now1 < cacheTimeout) :
    (getOpportunities remote f now1 cache).1 = docs
    ∧ (getOpportunities remote f now1 cache).2.2 = true
    ∧ getOpportunities remote f now2 (getOpportunities remote f now1 cache).2.1
        = (docs, (getOpportunities remote f now1 cache).2.1, false) := by
  have h1 : getOpportunities remote f now1 cache =
      (docs, setCache cache (getCacheKey "opportunities" f) docs now1, true) := by
    unfold getOpportunities
    cases hc : assocGet cache (getCacheKey "opportunities" f) with
    | none => simp [fetchOpportunities, hremote]
    | some e =>
      rw [hc] at hmiss
      dsimp only
      rw [hmiss]
      simp [fetchOpportunities, hremote]
  have hkey : assocGet (setCache cache (getCacheKey "opportunities" f) docs now1)
      (getCacheKey "opportunities" f) = some ⟨docs, now1⟩ := by
    unfold setCache
    rw [assocGet_assocSet]
    simp
  refine ⟨by rw [h1], by rw [h1], ?_⟩
  rw [h1]
  show getOpportunities remote f now2
      (setCache cache (getCacheKey "opportunities" f) docs now1)
    = (docs, setCache cache (getCacheKey "opportunities" f) docs now1, false)
  unfold getOpportunities
  rw [hkey]
  dsimp only
  have hfresh : isValidCache now2 (some (⟨docs, now1⟩ : CacheEntry (List OppDoc)))
      = true := by
    simp [isValidCache, httl]
  rw [hfresh]
  simp

/-- C3 witness: the theorem applied at a concrete remote, filter, empty
cache and two instants 0 and 100. -/
theorem list_cache_idempotent_single_remote_call_witness :
    (getOpportunities (fun _ => Except.ok []) emptyFilters 0 []).1 = []
    ∧ (getOpportunities (fun _ => Except.ok []) emptyFilters 0 []).2.2 = true
    ∧ getOpportunities (fun _ => Except.ok []) emptyFilters 100
        (getOpportunities (fun _ => Except.ok []) emptyFilters 0 []).2.1
      = ([], (getOpportunities (fun _ => Except.ok []) emptyFilters 0 []).2.1,
          false) :=
  list_cache_idempotent_single_remote_call (fun _ => Except.ok [])
    emptyFilters [] 0 100 [] rfl (by decide) (by decide) (by decide)

/-- C4 (confirmed): the timeout is five minutes in milliseconds; an
entry is fresh exactly when `now - timestamp < TTL`; a list call one
millisecond before expiry is served from cache with no remote call and
no state change, one millisecond after expiry it attempts a remote
fetch; a list call never deletes any cache key (staleness only bypasses
the entry), and only the explicit `clearCache` empties the map. -/
theorem ttl_boundary_and_eviction_policy :
    cacheTimeout = 5 * 60 * 1000
    ∧ (∀ (now : Nat) (e : CacheEntry (List OppDoc)),
        isValidCache now (some e) = decide (now - e.timestamp < 5 * 60 * 1000))
    ∧ (∀ remote f (cache : Cache (List OppDoc)) (d : List OppDoc) (t : Nat),
        assocGet cache (getCacheKey "opportunities" f) = some ⟨d, t⟩ →
        getOpportunities remote f (t + cacheTimeout - 1) cache = (d, cache, false))
    ∧ (∀ remote f (cache : Cache (List OppDoc)) (d : List OppDoc) (t : Nat),
        assocGet cache (getCacheKey "opportunities" f) = some ⟨d, t⟩ →
        (getOpportunities remote f (t + cacheTimeout + 1) cache).2.2 = true)
    ∧ (∀ remote f (now : Nat) (cache : Cache (List OppDoc)) (k : String),
        (assocGet cache k).isSome = true →
        (assocGet (getOpportunities remote f now cache).2.1 k).isSome = true)
    ∧ (∀ (cache : Cache (List OppDoc)) (k : String),
        assocGet (clearCache cache) k = none) := by
  refine ⟨rfl, fun now e => rfl, ?_, ?_, ?_, fun cache k => rfl⟩
  · intro remote f cache d t h
    unfold getOpportunities
    rw [h]
    dsimp only
    have hfresh : isValidCache (t + cacheTimeout - 1)
        (some (⟨d, t⟩ : CacheEntry (List OppDoc))) = true := by
      simp only [isValidCache, cacheTimeout, decide_eq_true_eq]
      omega
    rw [hfresh]
    simp
  · intro remote f cache d t h
    unfold getOpportunities
    rw [h]
    dsimp only
    have hstale : isValidCache (t + cacheTimeout + 1)
        (some (⟨d, t⟩ : CacheEntry (List OppDoc))) = false := by
      simp only [isValidCache, cacheTimeout, decide_eq_false_iff_not]
      omega
    rw [hstale]
    cases hr : remote (opportunityQueries f) <;>
      simp [fetchOpportunities, hr]
  · intro remote f now cache k h
    have hfetch : ∀ key,
        (assocGet (fetchOpportunities remote f now key cache).2.1 k).isSome
          = true := by
      intro key
      unfold fetchOpportunities
      cases hr : remote (opportunityQueries f) with
      | ok docs =>
        unfold setCache
        dsimp only
        rw [assocGet_assocSet]
        by_cases hkk : key = k
        · simp [hkk]
        · simp [hkk, h]
      | error e => simpa using h
    unfold getOpportunities
    cases hc : assocGet cache (getCacheKey "opportunities" f) with
    | none => exact hfetch _
    | some e =>
      dsimp only
      cases hv : isValidCache now (some e) with
      | true => rw [if_pos rfl]; exact h
      | false => rw [if_neg (by simp)]; exact hfetch _

/-- C4 witness: the fresh-boundary conjunct applied one millisecond
before expiry of an entry stamped at 0, with a failing remote. -/
theorem ttl_boundary_and_eviction_policy_witness :
    getOpportunities (fun _ => Except.error "down") emptyFilters
        (0 + cacheTimeout - 1)
        [(getCacheKey "opportunities" emptyFilters, ⟨[], 0⟩)]
      = ([], [(getCacheKey "opportunities" emptyFilters, ⟨[], 0⟩)], false) :=
  ttl_boundary_and_eviction_policy.2.2.1 (fun _ => Except.error "down")
    emptyFilters [(getCacheKey "opportunities" emptyFilters, ⟨[], 0⟩)] [] 0 rfl

/-- A distinguishable cached page used to exhibit the stale-cache
behaviour of the Appwrite list path. -/
def staleCachedDoc : OppDoc :=
  ⟨"real-1", "Cached Role", "", "Job", "", "Lagos, Nigeria", none, ""⟩

/-- C5 counterexample: the claim says every list call degrades FIRST to
a previously cached entry (even stale) and only without one to the
static fallback.  In the Appwrite variant a stale entry for the exact
key is present (first conjunct: it is no longer fresh, but it is in the
map), the remote fails, and `getOpportunities` returns the mock records,
not the cached page. -/
theorem appwrite_stale_cache_ignored_on_failure :
    (assocGet [(getCacheKey "opportunities" emptyFilters,
        (⟨[staleCachedDoc], 0⟩ : CacheEntry (List OppDoc)))]
      (getCacheKey "opportunities" emptyFilters)).isSome = true
    ∧ isValidCache (cacheTimeout + 1)
        (assocGet [(getCacheKey "opportunities" emptyFilters,
          (⟨[staleCachedDoc], 0⟩ : CacheEntry (List OppDoc)))]
          (getCacheKey "opportunities" emptyFilters)) = false
    ∧ (getOpportunities (fun _ => Except.error "network") emptyFilters
        (cacheTimeout + 1)
        [(getCacheKey "opportunities" emptyFilters, ⟨[staleCachedDoc], 0⟩)]).1
        = getMockOpportunities
    ∧ getMockOpportunities ≠ [staleCachedDoc] := by
  refine ⟨by decide, by decide, by decide, by decide⟩

/-- C5 (corrected): on a failed remote read neither variant propagates
the error, but their degradation differs.  The Sanity `fetchWithCache`
returns the cached entry whenever one exists - fresh or expired - and
falls back to the static records only when no entry exists; the Appwrite
`getOpportunities`, whenever its cache is not fresh and the remote
fails, returns the static mock records directly, ignoring any stale
cached entry. -/
theorem list_failure_fallback_policy :
    (∀ remote (query : String) (now : Nat) (cache : Cache (List SanityDoc))
        (e : CacheEntry (List SanityDoc)) (msg : String),
        assocGet cache (query ++ "_" ++ "\x7b\x7d") = some e →
        remote query = Except.error msg →
        (fetchWithCache remote query now cache).1 = e.data)
    ∧ (∀ remote (query : String) (now : Nat) (cache : Cache (List SanityDoc))
          (msg : String),
        assocGet cache (query ++ "_" ++ "\x7b\x7d") = none →
        remote query = Except.error msg →
        fetchWithCache remote query now cache = (getFallbackData query, cache, true))
    ∧ (∀ remote (f : Filters) (now : Nat) (cache : Cache (List OppDoc))
          (msg : String),
        remote (opportunityQueries f) = Except.error msg →
        isValidCache now (assocGet cache (getCacheKey "opportunities" f)) = false →
        getOpportunities remote f now cache = (getMockOpportunities, cache, true)) := by
  refine ⟨?_, ?_, ?_⟩
  · intro remote query now cache e msg hc hr
    unfold fetchWithCache
    rw [hc]
    dsimp only
    cases hv : isValidCache now (some e) with
    | true => rw [if_pos rfl]
    | false =>
      rw [if_neg (by simp), hr]
  · intro remote query now cache msg hc hr
    unfold fetchWithCache
    rw [hc]
    dsimp only
    rw [hr]
  · intro remote f now cache msg hr hmiss
    unfold getOpportunities
    cases hc : assocGet cache (getCacheKey "opportunities" f) with
    | none =>
      dsimp only
      unfold fetchOpportunities
      rw [hr]
    | some e =>
      rw [hc] at hmiss
      dsimp only
      rw [hmiss]
      unfold fetchOpportunities
      rw [hr]
      simp

/-- C5 witness: the no-entry conjunct of the amended theorem at a
concrete failing remote and empty cache. -/
theorem list_failure_fallback_policy_witness :
    fetchWithCache (fun _ => Except.error "down") "q" 0 []
      = (getFallbackData "q", [], true) :=
  list_failure_fallback_policy.2.1 (fun _ => Except.error "down") "q" 0 []
    "down" rfl rfl

/-- C6 (confirmed): `createOpportunity` rethrows a remote failure
unchanged instead of swallowing it or returning fallback data; on
success (the store echoing the created document) it returns that
document, whose identifier is the generated one, whose `publishedAt` is
the stamped instant, and whose `featured` flag is `false` when the input
left it absent. -/
theorem create_rethrows_and_stamps
    (remote : CreateRequest → Except String CreateRequest)
    (genId nowIso : String) (data : CreateData) (cache : Cache (List OppDoc)) :
    (∀ msg : String,
      remote (buildCreateRequest genId nowIso data) = Except.error msg →
      createOpportunity remote genId nowIso data cache = Except.error msg)
    ∧ (remote (buildCreateRequest genId nowIso data)
          = Except.ok (buildCreateRequest genId nowIso data) →
        createOpportunity remote genId nowIso data cache
          = Except.ok (buildCreateRequest genId nowIso data,
              clearCacheByCollection "opportunities" cache))
    ∧ (buildCreateRequest genId nowIso data).docId = genId
    ∧ (buildCreateRequest genId nowIso data).publishedAt = nowIso
    ∧ (data.featured = none →
        (buildCreateRequest genId nowIso data).featured = false) := by
  refine ⟨?_, ?_, rfl, rfl, ?_⟩
  · intro msg h
    unfold createOpportunity
    rw [h]
  · intro h
    unfold createOpportunity
    rw [h]
  · intro h
    simp [buildCreateRequest, h, jsOrFalse]

/-- C6 witness: the success conjunct and the featured default at a
concrete echoing store. -/
theorem create_rethrows_and_stamps_witness :
    createOpportunity (fun r => Except.ok r) "id-1"
        "2026-01-01T00:00:00.000Z" ⟨"T", none⟩ []
      = Except.ok (buildCreateRequest "id-1" "2026-01-01T00:00:00.000Z"
          ⟨"T", none⟩, [])
    ∧ (buildCreateRequest "id-1" "2026-01-01T00:00:00.000Z" ⟨"T", none⟩).featured
        = false :=
  ⟨(create_rethrows_and_stamps (fun r => Except.ok r) "id-1"
      "2026-01-01T00:00:00.000Z" ⟨"T", none⟩ []).2.1 rfl,
   (create_rethrows_and_stamps (fun r => Except.ok r) "id-1"
      "2026-01-01T00:00:00.000Z" ⟨"T", none⟩ []).2.2.2.2 rfl⟩

/-- C7 (confirmed): collection-scoped invalidation removes exactly the
cache entries whose key contains the collection name as a substring
(first conjunct, an exact description of `clearCacheByCollection`); a
successful `createOpportunity` applies it to "opportunities", and since
every opportunities list key contains "opportunities", a subsequent
`getOpportunities` with any filters on the cleared cache misses and
attempts a fresh remote fetch. -/
theorem create_invalidates_collection_cache :
    (∀ (c k : String) (cache : Cache (List OppDoc)),
        assocGet (clearCacheByCollection c cache) k
          = if jsIncludes k c = true then none else assocGet cache k)
    ∧ (∀ remote (genId nowIso : String) (data : CreateData)
          (cache : Cache (List OppDoc)) (doc : CreateRequest)
          remote2 (f : Filters) (now : Nat),
        remote (buildCreateRequest genId nowIso data) = Except.ok doc →
        createOpportunity remote genId nowIso data cache
            = Except.ok (doc, clearCacheByCollection "opportunities" cache)
          ∧ (getOpportunities remote2 f now
              (clearCacheByCollection "opportunities" cache)).2.2 = true) := by
  constructor
  · intro c k cache
    unfold clearCacheByCollection
    rw [assocGet_filter (fun x => !(jsIncludes x c)) cache k]
    cases hi : jsIncludes k c <;> simp [hi]
  · intro remote genId nowIso data cache doc remote2 f now h
    constructor
    · unfold createOpportunity
      rw [h]
    · have hnone : assocGet (clearCacheByCollection "opportunities" cache)
          (getCacheKey "opportunities" f) = none := by
        unfold clearCacheByCollection
        rw [assocGet_filter (fun x => !(jsIncludes x "opportunities")) cache
          (getCacheKey "opportunities" f)]
        simp [jsIncludes_getCacheKey]
      unfold getOpportunities
      rw [hnone]
      dsimp only
      unfold fetchOpportunities
      cases hr : remote2 (opportunityQueries f) <;> simp

/-- C7 witness: a successful create on a cache holding one
opportunities list page, followed by a list call on the cleared cache
that goes back to the remote store. -/
theorem create_invalidates_collection_cache_witness :
    createOpportunity (fun r => Except.ok r) "id-2" "t" ⟨"X", none⟩
        [(getCacheKey "opportunities" emptyFilters, ⟨[], 0⟩)]
      = Except.ok (buildCreateRequest "id-2" "t" ⟨"X", none⟩,
          clearCacheByCollection "opportunities"
            [(getCacheKey "opportunities" emptyFilters, ⟨[], 0⟩)])
    ∧ (getOpportunities (fun _ => Except.ok []) emptyFilters 0
        (clearCacheByCollection "opportunities"
          [(getCacheKey "opportunities" emptyFilters, ⟨[], 0⟩)])).2.2 = true :=
  create_invalidates_collection_cache.2 (fun r => Except.ok r) "id-2" "t"
    ⟨"X", none⟩ [(getCacheKey "opportunities" emptyFilters, ⟨[], 0⟩)]
    (buildCreateRequest "id-2" "t" ⟨"X", none⟩) (fun _ => Except.ok [])
    emptyFilters 0 rfl

/-- C8 (confirmed): in both client variants a term whose trimmed form is
empty (whitespace-only, including the empty string) short-circuits to an
empty result set with no remote call and no cache change; and the
Appwrite variant, the one that merges per-collection hits client-side,
cuts the merged result set to at most 10 entries for every term and
every remote behaviour (the Sanity variant delegates its truncation to
the `[0...limit]` slice of the query it sends, `limit` defaulting to
10). -/
theorem search_whitespace_shortcircuit_and_cap :
    (∀ remote (searchTerm : String) (types : List String),
        jsTrim searchTerm = "" →
        appwriteSearch remote searchTerm types = ([], 0))
    ∧ (∀ remote (searchTerm : String) (types : List String)
          (limit now : Nat) (cache : Cache (List SanityDoc)),
        jsTrim searchTerm = "" →
        sanitySearch remote searchTerm types limit now cache = ([], cache, false))
    ∧ (∀ remote (searchTerm : String) (types : List String),
        (appwriteSearch remote searchTerm types).1.length ≤ 10) := by
  refine ⟨?_, ?_, ?_⟩
  · intro remote searchTerm types h
    unfold appwriteSearch
    rw [if_pos h]
  · intro remote searchTerm types limit now cache h
    unfold sanitySearch
    rw [if_pos h]
  · intro remote searchTerm types
    unfold appwriteSearch
    by_cases h : jsTrim searchTerm = ""
    · rw [if_pos h]
      simp
    · rw [if_neg h]
      exact List.length_take_le 10 _

/-- C8 witness: both short-circuit conjuncts at the three-space term and
the cap conjunct at a non-empty term. -/
theorem search_whitespace_shortcircuit_and_cap_witness :
    appwriteSearch (fun _ _ => Except.ok []) "   " [] = ([], 0)
    ∧ sanitySearch (fun _ => Except.ok []) "   " [] 10 0 [] = ([], [], false)
    ∧ (appwriteSearch (fun _ _ => Except.ok []) "hello" []).1.length ≤ 10 :=
  ⟨search_whitespace_shortcircuit_and_cap.1 (fun _ _ => Except.ok []) "   " []
      (by decide),
   search_whitespace_shortcircuit_and_cap.2.1 (fun _ => Except.ok []) "   " []
      10 0 [] (by decide),
   search_whitespace_shortcircuit_and_cap.2.2 (fun _ _ => Except.ok [])
      "hello" []⟩

/-- C9 (confirmed): whenever at least one of the concurrently awaited
sub-fetches of `getFeaturedContent` (respectively `getDashboardStats`)
rejects, the whole `Promise.all` rejects and the catch returns the
static fallback summary in its entirety - never an object mixing
fetched and fallback fields. -/
theorem aggregate_all_or_nothing_fallback :
    (∀ (ro : Except String (List OppDoc)) (rc : Except String (List CompanyDoc))
        (rr : Except String (List RegDoc)) (ra : Except String (List ArtDoc)),
        (exceptIsErr ro || exceptIsErr rc || exceptIsErr rr || exceptIsErr ra)
          = true →
        getFeaturedContent ro rc rr ra = getMockFeaturedContent)
    ∧ (∀ so sc sr sa : Except String Nat,
        (exceptIsErr so || exceptIsErr sc || exceptIsErr sr || exceptIsErr sa)
          = true →
        getDashboardStats so sc sr sa = mockDashboardStats) := by
  constructor
  · intro ro rc rr ra h
    cases ro <;> cases rc <;> cases rr <;> cases ra <;>
      first
        | rfl
        | (exfalso; simp [exceptIsErr] at h)
  · intro so sc sr sa h
    cases so <;> cases sc <;> cases sr <;> cases sa <;>
      first
        | rfl
        | (exfalso; simp [exceptIsErr] at h)

/-- C9 witness: one rejected sub-fetch out of four forces the complete
static fallback in both aggregates. -/
theorem aggregate_all_or_nothing_fallback_witness :
    getFeaturedContent (Except.error "down") (Except.ok []) (Except.ok [])
        (Except.ok []) = getMockFeaturedContent
    ∧ getDashboardStats (Except.error "down") (Except.ok 0) (Except.ok 0)
        (Except.ok 0) = mockDashboardStats :=
  ⟨aggregate_all_or_nothing_fallback.1 (Except.error "down") (Except.ok [])
      (Except.ok []) (Except.ok []) (by decide),
   aggregate_all_or_nothing_fallback.2 (Except.error "down") (Except.ok 0)
      (Except.ok 0) (Except.ok 0) (by decide)⟩

end ThePipeline
